import Mathlib

/-!
Verification of the customer-churn analytics pipeline.

The development shallowly embeds the analytics code (risk scorer, CLV
analyzer, engagement analyzer, data processor, churn predictor state
machine, segmentation page guard) and proves the specified properties.

Numeric columns are modelled over `ℚ`; IEEE special values produced by
pandas (`NaN` from a failed dictionary `map`, infinities from division
by a zero maximum) are modelled explicitly by the type `F` below, since
several properties hinge on `NaN` propagation.
-/

unseal Rat.mul Rat.add Rat.sub Rat.inv Rat.ofScientific

/-- Decidable equality of `Except` results (not provided by the core
library). -/
instance {ε α : Type} [DecidableEq ε] [DecidableEq α] : DecidableEq (Except ε α) :=
  fun x y =>
    match x, y with
    | .error a, .error b =>
        if h : a = b then .isTrue (by rw [h]) else .isFalse (by simp [h])
    | .ok a, .ok b =>
        if h : a = b then .isTrue (by rw [h]) else .isFalse (by simp [h])
    | .error _, .ok _ => .isFalse (by simp)
    | .ok _, .error _ => .isFalse (by simp)

/-- Floating-point value model: `nan`, the two infinities, or a finite
rational.  Arithmetic follows IEEE-754 semantics on these cases (exact
rational arithmetic stands in for finite-precision arithmetic). -/
inductive F : Type
  | nan : F
  | inf : F
  | ninf : F
  | fin : ℚ → F
deriving DecidableEq

namespace F

/-- IEEE negation. -/
def neg : F → F
  | nan => nan
  | inf => ninf
  | ninf => inf
  | fin q => fin (-q)

/-- IEEE addition: `nan` absorbs, `inf + -inf = nan`. -/
def add : F → F → F
  | nan, _ => nan
  | _, nan => nan
  | inf, ninf => nan
  | ninf, inf => nan
  | inf, _ => inf
  | _, inf => inf
  | ninf, _ => ninf
  | _, ninf => ninf
  | fin a, fin b => fin (a + b)

/-- IEEE subtraction, via negation. -/
def sub (x y : F) : F := add x (neg y)

/-- IEEE multiplication: `nan` absorbs, `0 × ∞ = nan`, signs otherwise. -/
def mul : F → F → F
  | nan, _ => nan
  | _, nan => nan
  | inf, inf => inf
  | inf, ninf => ninf
  | ninf, inf => ninf
  | ninf, ninf => inf
  | inf, fin b => if 0 < b then inf else if b < 0 then ninf else nan
  | fin a, inf => if 0 < a then inf else if a < 0 then ninf else nan
  | ninf, fin b => if 0 < b then ninf else if b < 0 then inf else nan
  | fin a, ninf => if 0 < a then ninf else if a < 0 then inf else nan
  | fin a, fin b => fin (a * b)

/-- IEEE division: `nan` absorbs, `∞/∞ = nan`, finite/zero gives a
signed infinity (or `nan` for `0/0`), finite/∞ gives `0`. -/
def div : F → F → F
  | nan, _ => nan
  | _, nan => nan
  | inf, inf => nan
  | inf, ninf => nan
  | ninf, inf => nan
  | ninf, ninf => nan
  | inf, fin b => if 0 ≤ b then inf else ninf
  | ninf, fin b => if 0 ≤ b then ninf else inf
  | fin _, inf => fin 0
  | fin _, ninf => fin 0
  | fin a, fin b =>
      if b = 0 then (if a = 0 then nan else if 0 < a then inf else ninf)
      else fin (a / b)

end F

/-- One customer row of the dataset. Field names follow the dataframe
columns produced by the seeder and consumed by the analytics code. -/
structure CustomerRecord : Type where
  customerID : ℚ
  gender : String
  age : ℚ
  tenure : ℚ
  contractType : String
  monthlyCharges : ℚ
  totalCharges : ℚ
  internetService : String
  phoneService : String
  streamingTV : String
  streamingMovies : String
  paymentMethod : String
  satisfactionScore : ℚ
  churn : ℚ
deriving DecidableEq

/-- A dataset is an ordered collection of customer rows. -/
abbrev Dataset : Type := List CustomerRecord

/-- The dataframe maximum of the `Tenure` column; `NaN` on an empty
series, as in pandas. -/
def maxTenure : Dataset → F
  | ([] : List CustomerRecord) => F.nan
  | (r :: rs : List CustomerRecord) => F.fin (rs.foldl (fun m x => max m x.tenure) r.tenure)

namespace RiskScorer

/-- The `ContractType` risk lookup (`Series.map` with a dict: unmapped
values become `NaN`). -/
def contractRisk (s : String) : F :=
  if s = "Month-to-Month" then F.fin 100
  else if s = "One Year" then F.fin 50
  else if s = "Two Year" then F.fin 25
  else F.nan

/-- The `PaymentMethod` risk lookup (`Series.map` with a dict: unmapped
values become `NaN`). -/
def paymentRisk (s : String) : F :=
  if s = "Electronic check" then F.fin 80
  else if s = "Mailed check" then F.fin 60
  else if s = "Bank transfer (automatic)" then F.fin 40
  else if s = "Credit card (automatic)" then F.fin 40
  else F.nan

/-- `100 - (Tenure / Tenure.max() * 100)` for one row (`mt` is the
dataset-wide tenure maximum). -/
def tenureRisk (mt : F) (r : CustomerRecord) : F :=
  F.sub (F.fin 100) (F.mul (F.div (F.fin r.tenure) mt) (F.fin 100))

/-- `100 - (SatisfactionScore / 5 * 100)` for one row. -/
def satisfactionRisk (r : CustomerRecord) : F :=
  F.sub (F.fin 100) (F.mul (F.div (F.fin r.satisfactionScore) (F.fin 5)) (F.fin 100))

/-- The weighted row score: `sum(risk_factors[f] * weights[f])`, summed
in the dictionary's insertion order starting from the integer `0`. -/
def rowRiskScore (mt : F) (r : CustomerRecord) : F :=
  F.add (F.add (F.add (F.add (F.fin 0)
    (F.mul (tenureRisk mt r) (F.fin 0.3)))
    (F.mul (satisfactionRisk r) (F.fin 0.3)))
    (F.mul (contractRisk r.contractType) (F.fin 0.2)))
    (F.mul (paymentRisk r.paymentMethod) (F.fin 0.2))

/-- `RiskScorer.calculate_risk_score`: the per-row weighted composite. -/
def calculate_risk_score (ds : Dataset) : List F :=
  ds.map (rowRiskScore (maxTenure ds))

/-- Risk buckets produced by `pd.cut`. -/
inductive RiskCat : Type
  | low : RiskCat
  | medium : RiskCat
  | high : RiskCat
deriving DecidableEq

/-- `pd.cut` with `bins=[0, 30, 60, 100]`: right-closed, left-open
intervals; values outside `(0, 100]` (and non-finite values) get no
category (`NaN`). -/
def cutRisk : F → Option RiskCat
  | F.fin q =>
      if q ≤ 0 then none
      else if q ≤ 30 then some RiskCat.low
      else if q ≤ 60 then some RiskCat.medium
      else if q ≤ 100 then some RiskCat.high
      else none
  | _ => none

/-- `RiskScorer.get_risk_categories`: bucket the computed scores. -/
def get_risk_categories (ds : Dataset) : List (Option RiskCat) :=
  (calculate_risk_score ds).map cutRisk

end RiskScorer

namespace CLVAnalyzer

/-- `CLVAnalyzer.calculate_basic_clv`: the returned `CLV` series,
`MonthlyCharges * Tenure` per row. -/
def calculate_basic_clv (ds : Dataset) : List ℚ :=
  ds.map (fun r => r.monthlyCharges * r.tenure)

/-- Linear interpolation at (possibly fractional) sorted-order position
`p`, as `numpy.quantile` computes it: with `i = ⌊p⌋`, the value is
`xs[i] + (p - i) * (xs[i+1] - xs[i])` (the second index is clamped,
which only matters when the fraction is zero). -/
def interpAt (xs : List ℚ) (p : ℚ) : ℚ :=
  let i := (Rat.floor p).toNat
  let a := xs.getD i 0
  a + (p - (i : ℚ)) * (xs.getD (i + 1) a - a)

/-- The five quartile bin edges `pd.qcut(x, q=4)` computes: the
quantiles of the sorted data at fractions `0, 1/4, 1/2, 3/4, 1`. -/
def qcutEdges (tcs : List ℚ) : List ℚ :=
  let xs := tcs.insertionSort (· ≤ ·)
  (List.range 5).map (fun k : ℕ => interpAt xs ((k : ℚ) * (((tcs.length : ℚ) - 1) / 4)))

/-- The four value-segment labels, lowest quartile first. -/
inductive VSeg : Type
  | bronze : VSeg
  | silver : VSeg
  | gold : VSeg
  | platinum : VSeg
deriving DecidableEq

/-- Position of a label in the ascending quartile order. -/
def VSeg.rank : VSeg → ℕ
  | bronze => 0
  | silver => 1
  | gold => 2
  | platinum => 3

/-- All four labels in ascending order. -/
def allSegs : List VSeg := [VSeg.bronze, VSeg.silver, VSeg.gold, VSeg.platinum]

/-- Bin assignment against the five edges: right-closed intervals, with
the lowest edge itself included in the first bin (qcut's
`include_lowest` behaviour); values outside the edges get `NaN`. -/
def qcutAssign (es : List ℚ) (v : ℚ) : Option VSeg :=
  if v < es.getD 0 0 then none
  else if v ≤ es.getD 1 0 then some VSeg.bronze
  else if v ≤ es.getD 2 0 then some VSeg.silver
  else if v ≤ es.getD 3 0 then some VSeg.gold
  else if v ≤ es.getD 4 0 then some VSeg.platinum
  else none

/-- One row of the `groupby('ValueSegment').agg(...)` summary: mean of
`MonthlyCharges`, `Tenure` and `Churn`, and sum of `TotalCharges`.
A pandas mean over an empty group is `NaN`, modelled as `none`. -/
structure SegRow : Type where
  monthlyMean : Option ℚ
  tenureMean : Option ℚ
  churnMean : Option ℚ
  totalSum : ℚ
deriving DecidableEq

/-- Mean of a list of rationals (`none` when empty, as pandas `NaN`). -/
def meanQ (l : List ℚ) : Option ℚ :=
  if l.isEmpty then none else some (l.sum / (l.length : ℚ))

/-- The rows carrying a given label (`groupby` drops `NaN` labels). -/
def segGroup (ds : Dataset) (labels : List (Option VSeg)) (g : VSeg) : Dataset :=
  ((ds.zip labels).filter (fun p => decide (p.2 = some g))).map (fun p => p.1)

/-- The aggregate row for one label group. -/
def segAgg (ds : Dataset) (labels : List (Option VSeg)) (g : VSeg) : SegRow :=
  let grp := segGroup ds labels g
  { monthlyMean := meanQ (grp.map (fun r => r.monthlyCharges))
    tenureMean := meanQ (grp.map (fun r => r.tenure))
    churnMean := meanQ (grp.map (fun r => r.churn))
    totalSum := (grp.map (fun r => r.totalCharges)).sum }

/-- The per-row quartile labels of a dataset. -/
def segLabels (ds : Dataset) : List (Option VSeg) :=
  ds.map (fun r => qcutAssign (qcutEdges (ds.map (fun r => r.totalCharges))) r.totalCharges)

/-- `CLVAnalyzer.segment_value_analysis`: `pd.qcut(TotalCharges, 4,
labels=[Bronze,Silver,Gold,Platinum])` followed by a `groupby` on the
label.  `pd.qcut` raises `ValueError` when the computed bin edges are
not pairwise distinct (its default `duplicates='raise'`); on success the
per-row labels and the four aggregate rows are returned. -/
def segment_value_analysis (ds : Dataset) :
    Except String (List (Option VSeg) × List (VSeg × SegRow)) :=
  if (qcutEdges (ds.map (fun r => r.totalCharges))).dedup.length ≠
      (qcutEdges (ds.map (fun r => r.totalCharges))).length then
    .error "Bin edges must be unique"
  else
    .ok (segLabels ds, allSegs.map (fun g => (g, segAgg ds (segLabels ds) g)))

end CLVAnalyzer

namespace EngagementAnalyzer

/-- Count of the four service columns whose value differs from `"No"`
(the row-wise `sum(x != 'No')`). -/
def serviceCount (r : CustomerRecord) : ℚ :=
  (if r.phoneService ≠ "No" then 1 else 0) +
  (if r.internetService ≠ "No" then 1 else 0) +
  (if r.streamingTV ≠ "No" then 1 else 0) +
  (if r.streamingMovies ≠ "No" then 1 else 0)

/-- Service adoption score: the count over 4, times 100. -/
def serviceScore (r : CustomerRecord) : ℚ := serviceCount r / 4 * 100

/-- `Tenure / Tenure.max() * 100` for one row. -/
def tenureScore (mt : F) (r : CustomerRecord) : F :=
  F.mul (F.div (F.fin r.tenure) mt) (F.fin 100)

/-- The contract commitment lookup (`Series.map` with a dict: unmapped
values become `NaN`). -/
def contractScore (s : String) : F :=
  if s = "Month-to-Month" then F.fin 33
  else if s = "One Year" then F.fin 66
  else if s = "Two Year" then F.fin 100
  else F.nan

/-- One row of `calculate_engagement_score`:
`service_score * 0.4 + tenure_score * 0.3 + contract_score * 0.3`. -/
def rowEngagement (mt : F) (r : CustomerRecord) : F :=
  F.add (F.add (F.mul (F.fin (serviceScore r)) (F.fin 0.4))
    (F.mul (tenureScore mt r) (F.fin 0.3)))
    (F.mul (contractScore r.contractType) (F.fin 0.3))

/-- `EngagementAnalyzer.calculate_engagement_score`. -/
def calculate_engagement_score (ds : Dataset) : List F :=
  ds.map (rowEngagement (maxTenure ds))

end EngagementAnalyzer

/-- Error taxonomy of the pipeline (spec §7): the analytics core
surfaces these to its caller. -/
inductive PipelineError : Type
  | validationError : PipelineError
  | dataPreparationError : PipelineError
  | trainingError : PipelineError
  | invalidStateError : PipelineError
deriving DecidableEq

/-- The churn predictor's state.  `model` is `some f` exactly when the
wrapped random-forest classifier has been fitted (`f` standing for the
fitted classifier's `predict_proba`, which is external to this
repository); `feature_importance` is populated by `train` and starts
out as `None`. -/
structure ChurnPredictor : Type where
  model : Option (List (List ℚ) → List (List ℚ))
  feature_importance : Option (List (String × ℚ))

/-- `ChurnPredictor.__init__`: an unfitted classifier and no stored
feature importances. -/
def ChurnPredictor.init : ChurnPredictor :=
  { model := none, feature_importance := none }

/-- `ChurnPredictor.predict`: `predict_proba` of the wrapped model.  An
unfitted scikit-learn estimator raises `NotFittedError` (the spec's
InvalidStateError), which the method re-raises. -/
def ChurnPredictor.predict (p : ChurnPredictor) (X : List (List ℚ)) :
    Except PipelineError (List (List ℚ)) :=
  match p.model with
  | some f => .ok (f X)
  | none => .error PipelineError.invalidStateError

/-- `ChurnPredictor.get_top_features`: raises when
`feature_importance is None`, otherwise `head(n)`. -/
def ChurnPredictor.get_top_features (p : ChurnPredictor) (n : ℕ) :
    Except PipelineError (List (String × ℚ)) :=
  match p.feature_importance with
  | some fi => .ok (fi.take n)
  | none => .error PipelineError.invalidStateError

/-- A dataframe column for the data processor: either an object
(string) column or a numeric column. -/
inductive ColData : Type
  | strCol : List String → ColData
  | numCol : List ℚ → ColData
deriving DecidableEq

/-- A dataframe for the data processor: named columns in order. -/
abbrev Df : Type := List (String × ColData)

/-- Drop the named columns (`df.drop(..., errors='ignore')`). -/
def dropCols (df : Df) (names : List String) : Df :=
  df.filter (fun c => decide (c.1 ∉ names))

/-- Find a column by name. -/
def lookupCol (df : Df) (k : String) : Option ColData :=
  match df.find? (fun c => decide (c.1 = k)) with
  | some c => some c.2
  | none => none

/-- String order used to model `LabelEncoder`'s sorted classes. -/
def strLe (a b : String) : Prop := a < b ∨ a = b

instance : DecidableRel strLe := fun a b => by
  unfold strLe; infer_instance

/-- `LabelEncoder.fit`: the sorted distinct values of the column. -/
def encFit (vs : List String) : List String :=
  vs.dedup.insertionSort strLe

/-- `LabelEncoder.transform`: each value's index among the classes. -/
def encTransform (vs : List String) : List ℚ :=
  vs.map (fun v => ((encFit vs).indexOf v : ℚ))

/-- The data processor's mutable state: a scaler (unfitted, or fitted
with per-column mean and biased variance) and the label-encoder dict. -/
structure DataProcessor : Type where
  scaler : Option (List (String × ℚ × ℚ))
  label_encoders : List (String × List String)

/-- `DataProcessor.__init__`: fresh `StandardScaler`, empty dict. -/
def DataProcessor.init : DataProcessor :=
  { scaler := none, label_encoders := [] }

/-- Python dict assignment `d[k] = v`: replace in place or append. -/
def dictInsert (l : List (String × List String)) (k : String) (v : List String) :
    List (String × List String) :=
  if l.any (fun c => c.1 == k) then
    l.map (fun c => if c.1 = k then (k, v) else c)
  else l ++ [(k, v)]

/-- The encoder dict after the `for col in categorical_cols` loop: one
fitted encoder stored per object column, in column order. -/
def fitEncoders (encs : List (String × List String)) : Df → List (String × List String)
  | ([] : List (String × ColData)) => encs
  | ((n, ColData.strCol vs) :: rest : List (String × ColData)) =>
      fitEncoders (dictInsert encs n (encFit vs)) rest
  | ((_, ColData.numCol _) :: rest : List (String × ColData)) => fitEncoders encs rest

/-- The dataframe after the loop: every object column replaced by its
integer codes. -/
def transformCols (df : Df) : Df :=
  df.map (fun c =>
    match c with
    | (n, ColData.strCol vs) => (n, ColData.numCol (encTransform vs))
    | other => other)

/-- Column mean (`0` never arises on the success path: columns are the
dataset's rows). -/
def colMean : ColData → ℚ
  | ColData.numCol vs => if vs.isEmpty then 0 else vs.sum / (vs.length : ℚ)
  | ColData.strCol _ => 0

/-- Column biased variance, as `StandardScaler` computes it. -/
def colVar : ColData → ℚ
  | ColData.numCol vs =>
      if vs.isEmpty then 0
      else (vs.map (fun x => (x - colMean (ColData.numCol vs)) ^ 2)).sum / (vs.length : ℚ)
  | ColData.strCol _ => 0

/-- `DataProcessor.prepare_model_data`: copy, drop `CustomerID` and
`LastUpdate`, fit-and-store a label encoder for every object column
while encoding it, then split off the target column and fit the scaler
on the features.  Dropping an absent target raises `KeyError` (the
spec's DataPreparationError) — but only after the encoder loop has
already mutated `self.label_encoders`.  The standardized feature values
`(x - mean) / sqrt(var)` are irrational, so the success payload carries
the encoded (unscaled) features together with the fitted statistics;
the claims under verification do not inspect the scaled values. -/
def DataProcessor.prepare_model_data (proc : DataProcessor) (df : Df) (target : String) :
    DataProcessor × Except PipelineError (Df × ColData) :=
  let modelDf := dropCols df ["CustomerID", "LastUpdate"]
  let proc1 : DataProcessor := { proc with label_encoders := fitEncoders proc.label_encoders modelDf }
  let encoded := transformCols modelDf
  match lookupCol encoded target with
  | none => (proc1, .error PipelineError.dataPreparationError)
  | some y =>
      let X := dropCols encoded [target]
      ({ proc1 with scaler := some (X.map (fun c => (c.1, colMean c.2, colVar c.2))) },
        .ok (X, y))

namespace Segmentation

/-- A page-level dataframe column of possibly-missing numeric values. -/
abbrev PageDf : Type := List (String × List (Option ℚ))

/-- `Series.mean()`: the mean of the present values (`NaN`-skipping);
`none` when no value is present. -/
def optMean (vs : List (Option ℚ)) : Option ℚ :=
  let present := vs.filterMap id
  if present.isEmpty then none else some (present.sum / (present.length : ℚ))

/-- `X.fillna(X.mean())` for one column. -/
def fillMean (vs : List (Option ℚ)) : List (Option ℚ) :=
  vs.map (fun v => match v with
    | some q => some q
    | none => optMean vs)

/-- `render_segmentation_page`, up to the external scaling/k-means
call: reject fewer than 2 selected features (the page warns and returns
before any `Segment` column is assigned — the spec's ValidationError);
otherwise select the feature columns and impute missing values with the
column mean, producing the matrix handed to the scaler and `KMeans`. -/
def renderSegmentationPrep (df : PageDf) (selectedFeatures : List String) :
    Except PipelineError (List (String × List (Option ℚ))) :=
  if selectedFeatures.length < 2 then .error PipelineError.validationError
  else .ok (selectedFeatures.map (fun f =>
    (f, fillMean ((lookupPageCol df f).getD []))))
where
  lookupPageCol (df : PageDf) (k : String) : Option (List (Option ℚ)) :=
    match df.find? (fun c => decide (c.1 = k)) with
    | some c => some c.2
    | none => none

end Segmentation

namespace Cols

/-- A cell value in the column-keyed dataframe model. -/
inductive Value : Type
  | num : ℚ → Value
  | str : String → Value
  | seg : CLVAnalyzer.VSeg → Value

/-- A row as a finite assignment of column names to cells (`none` =
column absent or `NaN`). -/
abbrev Row : Type := String → Option Value

/-- `df[k] = v` restricted to one row: writes exactly the key `k`. -/
def setCol (k : String) (v : Option Value) (r : Row) : Row :=
  fun k' => if k' = k then v else r k'

/-- Numeric read of a cell. -/
def getNum (r : Row) (k : String) : Option ℚ :=
  match r k with
  | some (Value.num q) => some q
  | _ => none

/-- String read of a cell. -/
def getStr (r : Row) (k : String) : Option String :=
  match r k with
  | some (Value.str s) => some s
  | _ => none

/-- The base columns of the customer schema (seeder and loader). -/
def baseSchema : List String :=
  ["CustomerID", "Gender", "Age", "Tenure", "ContractType", "MonthlyCharges",
   "TotalCharges", "InternetService", "PhoneService", "StreamingTV",
   "StreamingMovies", "PaymentMethod", "SatisfactionScore", "Churn", "LastUpdate"]

/-- `calculate_basic_clv` as a dataframe mutation:
`df['CLV'] = df['MonthlyCharges'] * df['Tenure']` (fails if a row lacks
the numeric operands, as the pandas expression would). -/
def basicClvOp (ds : List Row) : Option (List Row) :=
  ds.mapM (fun r => do
    let m ← getNum r "MonthlyCharges"
    let t ← getNum r "Tenure"
    pure (setCol "CLV" (some (Value.num (m * t))) r))

/-- `segment_value_analysis`'s dataframe mutation:
`df['ValueSegment'] = pd.qcut(df['TotalCharges'], 4, ...)` (fails on
missing operands or duplicate bin edges). -/
def valueSegmentOp (ds : List Row) : Option (List Row) :=
  do
    let tcs ← ds.mapM (fun r => getNum r "TotalCharges")
    let es := CLVAnalyzer.qcutEdges tcs
    if es.dedup.length ≠ es.length then none
    else
      pure (ds.map (fun r =>
        setCol "ValueSegment"
          ((CLVAnalyzer.qcutAssign es ((getNum r "TotalCharges").getD 0)).map Value.seg) r))

/-- Row-wise service usage count over the keyed model. -/
def svcCount (r : Row) : Option ℚ := do
  let a ← getStr r "PhoneService"
  let b ← getStr r "InternetService"
  let c ← getStr r "StreamingTV"
  let d ← getStr r "StreamingMovies"
  pure ((if a ≠ "No" then 1 else 0) + (if b ≠ "No" then 1 else 0) +
    (if c ≠ "No" then 1 else 0) + (if d ≠ "No" then 1 else 0))

/-- `DataProcessor.calculate_customer_metrics`: adds `CLV`, `ARPU`
(with `Tenure.clip(1)` as denominator) and `ServiceUsageScore`. -/
def customerMetricsOp (ds : List Row) : Option (List Row) :=
  ds.mapM (fun r => do
    let m ← getNum r "MonthlyCharges"
    let t ← getNum r "Tenure"
    let tot ← getNum r "TotalCharges"
    let s ← svcCount r
    let r1 := setCol "CLV" (some (Value.num (m * t))) r
    let r2 := setCol "ARPU" (some (Value.num (tot / max t 1))) r1
    pure (setCol "ServiceUsageScore" (some (Value.num s)) r2))

/-- Frame condition: same length, and every base-schema cell of every
row unchanged. -/
def Preserved (ds ds' : List Row) : Prop :=
  ds'.length = ds.length ∧
    ∀ i : ℕ, ∀ k ∈ baseSchema,
      (ds'.getD i (fun _ => none)) k = (ds.getD i (fun _ => none)) k

end Cols

/-- Well-formedness of a dataset for the risk score (the known
categorical vocabularies, satisfaction in `[1,5]`, non-negative
tenure). -/
def RiskWF (ds : Dataset) : Prop :=
  ∀ r ∈ ds,
    r.contractType ∈ (["Month-to-Month", "One Year", "Two Year"] : List String) ∧
    r.paymentMethod ∈ (["Electronic check", "Mailed check",
      "Bank transfer (automatic)", "Credit card (automatic)"] : List String) ∧
    1 ≤ r.satisfactionScore ∧ r.satisfactionScore ≤ 5 ∧ 0 ≤ r.tenure

/-- Well-formedness of a dataset for the engagement score. -/
def EngWF (ds : Dataset) : Prop :=
  ∀ r ∈ ds,
    r.contractType ∈ (["Month-to-Month", "One Year", "Two Year"] : List String) ∧
    0 ≤ r.tenure

/-- The partition property of the quartile value segmentation: one
label per record, labels ascending with `TotalCharges`, the four groups
disjointly exhaust the records, and the summary is the per-group
aggregate table. -/
def quartilePartitionSpec (ds : Dataset) (labels : List (Option CLVAnalyzer.VSeg))
    (summ : List (CLVAnalyzer.VSeg × CLVAnalyzer.SegRow)) : Prop :=
  labels.length = ds.length ∧
  (∀ i : ℕ, i < ds.length → ∃ g, labels.getD i none = some g) ∧
  (∀ g g' : CLVAnalyzer.VSeg, ∀ i j : ℕ, ∀ hi : i < ds.length, ∀ hj : j < ds.length,
    labels.getD i none = some g → labels.getD j none = some g' →
    g.rank < g'.rank →
    (ds.get ⟨i, hi⟩).totalCharges < (ds.get ⟨j, hj⟩).totalCharges) ∧
  (CLVAnalyzer.allSegs.map (fun g => (CLVAnalyzer.segGroup ds labels g).length)).sum
    = ds.length ∧
  summ = CLVAnalyzer.allSegs.map (fun g => (g, CLVAnalyzer.segAgg ds labels g))

/-- A concrete well-formed customer row used in witnesses. -/
def sampleRecord : CustomerRecord :=
  { customerID := 1, gender := "Male", age := 40, tenure := 10,
    contractType := "Month-to-Month", monthlyCharges := 70, totalCharges := 700,
    internetService := "DSL", phoneService := "Yes", streamingTV := "No",
    streamingMovies := "No", paymentMethod := "Electronic check",
    satisfactionScore := 3, churn := 0 }

/-- One-row witness dataset. -/
def dsOne : Dataset := [sampleRecord]

/-- A row with the seeder's `PaymentMethod` spelling, which the risk
lookup table does not contain. -/
def dsBadPay : Dataset := [{ sampleRecord with paymentMethod := "Electronic Check" }]

/-- Four rows with distinct `TotalCharges` (10, 20, 30, 40). -/
def dsQuart : Dataset :=
  [{ sampleRecord with totalCharges := 10 }, { sampleRecord with totalCharges := 20 },
   { sampleRecord with totalCharges := 30 }, { sampleRecord with totalCharges := 40 }]

/-- Four rows with identical `TotalCharges`. -/
def dsQuartDup : Dataset := [sampleRecord, sampleRecord, sampleRecord, sampleRecord]

/-- The labels `segment_value_analysis` assigns on `dsQuart`. -/
def quartLabels : List (Option CLVAnalyzer.VSeg) :=
  [some CLVAnalyzer.VSeg.bronze, some CLVAnalyzer.VSeg.silver,
   some CLVAnalyzer.VSeg.gold, some CLVAnalyzer.VSeg.platinum]

/-- The summary `segment_value_analysis` produces on `dsQuart`. -/
def quartSumm : List (CLVAnalyzer.VSeg × CLVAnalyzer.SegRow) :=
  [(CLVAnalyzer.VSeg.bronze, ⟨some 70, some 10, some 0, 10⟩),
   (CLVAnalyzer.VSeg.silver, ⟨some 70, some 10, some 0, 20⟩),
   (CLVAnalyzer.VSeg.gold, ⟨some 70, some 10, some 0, 30⟩),
   (CLVAnalyzer.VSeg.platinum, ⟨some 70, some 10, some 0, 40⟩)]

/-- A single-object-column dataframe for the processor. -/
def dfGender : Df := [("Gender", ColData.strCol ["Male"])]

/-- A single-numeric-column dataframe for the processor. -/
def dfNumOnly : Df := [("Tenure", ColData.numCol [5])]

/-- Row constructor for the column-keyed model. -/
def mkRow (vals : List (String × Cols.Value)) : Cols.Row :=
  fun k => (vals.find? (fun p => p.1 == k)).map (fun p => p.2)

/-- A keyed-model customer row with the given `TotalCharges`. -/
def rowKEx (tc : ℚ) : Cols.Row :=
  mkRow [("CustomerID", Cols.Value.num 1), ("Gender", Cols.Value.str "Male"),
    ("Age", Cols.Value.num 40), ("Tenure", Cols.Value.num 10),
    ("ContractType", Cols.Value.str "Month-to-Month"),
    ("MonthlyCharges", Cols.Value.num 70), ("TotalCharges", Cols.Value.num tc),
    ("InternetService", Cols.Value.str "DSL"), ("PhoneService", Cols.Value.str "Yes"),
    ("StreamingTV", Cols.Value.str "No"), ("StreamingMovies", Cols.Value.str "No"),
    ("PaymentMethod", Cols.Value.str "Electronic check"),
    ("SatisfactionScore", Cols.Value.num 3), ("Churn", Cols.Value.num 0)]

/-- Keyed-model witness dataset. -/
def dsKEx : List Cols.Row := [rowKEx 10, rowKEx 20, rowKEx 30, rowKEx 40]

/-- Result of the basic-CLV mutation on `dsKEx`. -/
def dsKEx1 : List Cols.Row := (Cols.basicClvOp dsKEx).getD []

/-- Result of the value-segment mutation on `dsKEx`. -/
def dsKEx2 : List Cols.Row := (Cols.valueSegmentOp dsKEx).getD []

/-- Result of the customer-metrics mutation on `dsKEx`. -/
def dsKEx3 : List Cols.Row := (Cols.customerMetricsOp dsKEx).getD []

/-! ## Basic lemmas -/

namespace F

@[simp] theorem add_fin_fin (a b : ℚ) : add (fin a) (fin b) = fin (a + b) := rfl
@[simp] theorem mul_fin_fin (a b : ℚ) : mul (fin a) (fin b) = fin (a * b) := rfl
@[simp] theorem sub_fin_fin (a b : ℚ) : sub (fin a) (fin b) = fin (a - b) := by
  simp [sub, neg, add, sub_eq_add_neg]

@[simp] theorem add_nan_left (x : F) : add nan x = nan := by cases x <;> rfl
@[simp] theorem add_nan_right (x : F) : add x nan = nan := by cases x <;> rfl
@[simp] theorem mul_nan_left (x : F) : mul nan x = nan := by cases x <;> rfl
@[simp] theorem mul_nan_right (x : F) : mul x nan = nan := by cases x <;> rfl

theorem div_fin_fin_of_ne (a b : ℚ) (hb : b ≠ 0) :
    div (fin a) (fin b) = fin (a / b) := by
  simp [div, hb]

end F

theorem getD_map_eq {α β : Type} (f : α → β) (l : List α) (i : ℕ)
    (hi : i < l.length) (d : β) :
    (l.map f).getD i d = f (l.get ⟨i, hi⟩) := by
  rw [List.getD_eq_getElem _ _ (by simpa using hi), List.getElem_map]
  simp [List.get_eq_getElem]

theorem foldl_max_le_self (l : List ℚ) (a : ℚ) : a ≤ l.foldl max a := by
  induction l generalizing a with
  | nil => exact le_refl a
  | cons x xs ih => exact le_trans (le_max_left a x) (ih (max a x))

theorem mem_le_foldl_max (l : List ℚ) (a x : ℚ) (hx : x ∈ l) : x ≤ l.foldl max a := by
  induction l generalizing a with
  | nil => cases hx
  | cons y ys ih =>
    rcases List.mem_cons.mp hx with h | h
    · subst h
      exact le_trans (le_max_right a x) (foldl_max_le_self ys (max a x))
    · exact ih (max a y) h

theorem tenure_le_max (ds : Dataset) (m : ℚ) (hm : maxTenure ds = F.fin m)
    (r : CustomerRecord) (hr : r ∈ ds) : r.tenure ≤ m := by
  cases ds with
  | nil => cases hr
  | cons r0 rs =>
    have hm' : (rs.map (fun x => x.tenure)).foldl max r0.tenure = m := by
      have h := hm
      simp only [maxTenure] at h
      injection h with h
      rw [List.foldl_map]
      exact h
    rcases List.mem_cons.mp hr with h | h
    · subst h
      exact hm' ▸ foldl_max_le_self _ _
    · exact hm' ▸ mem_le_foldl_max _ _ _ (List.mem_map_of_mem _ h)

namespace RiskScorer

theorem contractRisk_of_mem (s : String)
    (h : s ∈ (["Month-to-Month", "One Year", "Two Year"] : List String)) :
    ∃ cr : ℚ, contractRisk s = F.fin cr ∧ (cr = 100 ∨ cr = 50 ∨ cr = 25) := by
  simp only [List.mem_cons, List.not_mem_nil, or_false] at h
  rcases h with h | h | h <;> subst h
  · exact ⟨100, by decide, Or.inl rfl⟩
  · exact ⟨50, by decide, Or.inr (Or.inl rfl)⟩
  · exact ⟨25, by decide, Or.inr (Or.inr rfl)⟩

theorem paymentRisk_of_mem (s : String)
    (h : s ∈ (["Electronic check", "Mailed check", "Bank transfer (automatic)",
      "Credit card (automatic)"] : List String)) :
    ∃ pr : ℚ, paymentRisk s = F.fin pr ∧ (pr = 80 ∨ pr = 60 ∨ pr = 40) := by
  simp only [List.mem_cons, List.not_mem_nil, or_false] at h
  rcases h with h | h | h | h <;> subst h
  · exact ⟨80, by decide, Or.inl rfl⟩
  · exact ⟨60, by decide, Or.inr (Or.inl rfl)⟩
  · exact ⟨40, by decide, Or.inr (Or.inr rfl)⟩
  · exact ⟨40, by decide, Or.inr (Or.inr rfl)⟩

/-- The per-row risk score under the well-formedness preconditions:
its exact value and the bounds `13 ≤ q ≤ 90`. -/
theorem risk_entry (ds : Dataset) (m : ℚ) (hm : maxTenure ds = F.fin m)
    (hmpos : 0 < m) (hwf : RiskWF ds) (i : ℕ) (hi : i < ds.length) :
    ∃ q cr pr : ℚ,
      contractRisk (ds.get ⟨i, hi⟩).contractType = F.fin cr ∧
      paymentRisk (ds.get ⟨i, hi⟩).paymentMethod = F.fin pr ∧
      (calculate_risk_score ds).getD i F.nan = F.fin q ∧
      q = 0.3 * (100 - 100 * (ds.get ⟨i, hi⟩).tenure / m) +
          0.3 * (100 - 100 * (ds.get ⟨i, hi⟩).satisfactionScore / 5) +
          0.2 * cr + 0.2 * pr ∧
      13 ≤ q ∧ q ≤ 90 := by
  obtain ⟨hct, hpm, hs1, hs5, ht0⟩ := hwf (ds.get ⟨i, hi⟩) (List.get_mem ds i hi)
  have htm : (ds.get ⟨i, hi⟩).tenure ≤ m :=
    tenure_le_max ds m hm _ (List.get_mem ds i hi)
  obtain ⟨cr, hcreq, hcrv⟩ := contractRisk_of_mem _ hct
  obtain ⟨pr, hpreq, hprv⟩ := paymentRisk_of_mem _ hpm
  have hentry : (calculate_risk_score ds).getD i F.nan
      = rowRiskScore (maxTenure ds) (ds.get ⟨i, hi⟩) := by
    unfold calculate_risk_score
    exact getD_map_eq _ _ _ hi _
  rw [hm] at hentry
  have hrow : rowRiskScore (F.fin m) (ds.get ⟨i, hi⟩) =
      F.fin ((0 : ℚ) + (100 - (ds.get ⟨i, hi⟩).tenure / m * 100) * 0.3 +
        (100 - (ds.get ⟨i, hi⟩).satisfactionScore / 5 * 100) * 0.3 +
        cr * 0.2 + pr * 0.2) := by
    unfold rowRiskScore tenureRisk satisfactionRisk
    rw [hcreq, hpreq, F.div_fin_fin_of_ne _ _ (ne_of_gt hmpos),
      F.div_fin_fin_of_ne _ _ (by norm_num : (5 : ℚ) ≠ 0)]
    simp only [F.sub_fin_fin, F.mul_fin_fin, F.add_fin_fin]
  have hx0 : 0 ≤ (ds.get ⟨i, hi⟩).tenure / m := div_nonneg ht0 (le_of_lt hmpos)
  have hx1 : (ds.get ⟨i, hi⟩).tenure / m ≤ 1 := (div_le_one hmpos).mpr htm
  have hcr1 : 25 ≤ cr := by rcases hcrv with h | h | h <;> rw [h] <;> norm_num
  have hcr2 : cr ≤ 100 := by rcases hcrv with h | h | h <;> rw [h] <;> norm_num
  have hpr1 : 40 ≤ pr := by rcases hprv with h | h | h <;> rw [h] <;> norm_num
  have hpr2 : pr ≤ 80 := by rcases hprv with h | h | h <;> rw [h] <;> norm_num
  refine ⟨_, cr, pr, hcreq, hpreq, hentry.trans hrow, by ring, ?_, ?_⟩
  · have h5 : (ds.get ⟨i, hi⟩).satisfactionScore / 5 ≤ 1 := by linarith
    nlinarith [hx1, h5, hcr1, hpr1]
  · have h5 : 1 / 5 ≤ (ds.get ⟨i, hi⟩).satisfactionScore / 5 := by linarith
    nlinarith [hx0, h5, hcr2, hpr2]

end RiskScorer

/-! ## C1: risk score formula and range -/

/-- C1: For every dataset whose records have known `ContractType` and
`PaymentMethod` vocabulary, `SatisfactionScore ∈ [1,5]`, non-negative
tenure and a positive maximum tenure, `calculate_risk_score` maps each
record to `0.3*(100 - 100*tenure/max_tenure) +
0.3*(100 - 100*satisfaction/5) + 0.2*contract_risk + 0.2*payment_risk`
(lookup-table sub-scores), and the value lies in `[0,100]`. -/
theorem risk_score_formula_and_range (ds : Dataset) (m : ℚ)
    (hm : maxTenure ds = F.fin m) (hmpos : 0 < m) (hwf : RiskWF ds)
    (i : ℕ) (hi : i < ds.length) :
    ∃ q cr pr : ℚ,
      RiskScorer.contractRisk (ds.get ⟨i, hi⟩).contractType = F.fin cr ∧
      RiskScorer.paymentRisk (ds.get ⟨i, hi⟩).paymentMethod = F.fin pr ∧
      (RiskScorer.calculate_risk_score ds).getD i F.nan = F.fin q ∧
      q = 0.3 * (100 - 100 * (ds.get ⟨i, hi⟩).tenure / m) +
          0.3 * (100 - 100 * (ds.get ⟨i, hi⟩).satisfactionScore / 5) +
          0.2 * cr + 0.2 * pr ∧
      0 ≤ q ∧ q ≤ 100 := by
  obtain ⟨q, cr, pr, h1, h2, h3, h4, h5, h6⟩ :=
    RiskScorer.risk_entry ds m hm hmpos hwf i hi
  exact ⟨q, cr, pr, h1, h2, h3, h4, by linarith, by linarith⟩

/-- Witness for C1 on the one-row dataset `dsOne`. -/
theorem risk_score_formula_and_range_witness :
    maxTenure dsOne = F.fin 10 ∧ (0 : ℚ) < 10 ∧ RiskWF dsOne ∧ 0 < dsOne.length ∧
      (∃ q cr pr : ℚ,
        RiskScorer.contractRisk (dsOne.get ⟨0, by decide⟩).contractType = F.fin cr ∧
        RiskScorer.paymentRisk (dsOne.get ⟨0, by decide⟩).paymentMethod = F.fin pr ∧
        (RiskScorer.calculate_risk_score dsOne).getD 0 F.nan = F.fin q ∧
        q = 0.3 * (100 - 100 * (dsOne.get ⟨0, by decide⟩).tenure / 10) +
            0.3 * (100 - 100 * (dsOne.get ⟨0, by decide⟩).satisfactionScore / 5) +
            0.2 * cr + 0.2 * pr ∧
        0 ≤ q ∧ q ≤ 100) :=
  ⟨by decide, by norm_num, by unfold RiskWF; decide, by decide,
    risk_score_formula_and_range dsOne 10 (by decide) (by norm_num)
      (by unfold RiskWF; decide) 0 (by decide)⟩

/-! ## C2: risk categories -/

/-- C2: Under the risk-score preconditions, `get_risk_categories`
buckets each record's score via `(0,30] → Low`, `(30,60] → Medium`,
`(60,100] → High`; the score is strictly positive, and a score of
exactly `0` (unreachable under the preconditions) would be Low. -/
theorem risk_categories_bucketing (ds : Dataset) (m : ℚ)
    (hm : maxTenure ds = F.fin m) (hmpos : 0 < m) (hwf : RiskWF ds)
    (i : ℕ) (hi : i < ds.length) :
    ∃ q : ℚ,
      (RiskScorer.calculate_risk_score ds).getD i F.nan = F.fin q ∧ 0 < q ∧ q ≤ 100 ∧
      (RiskScorer.get_risk_categories ds).getD i none =
        some (if q ≤ 30 then RiskScorer.RiskCat.low
              else if q ≤ 60 then RiskScorer.RiskCat.medium
              else RiskScorer.RiskCat.high) ∧
      (q = 0 → (RiskScorer.get_risk_categories ds).getD i none =
        some RiskScorer.RiskCat.low) := by
  obtain ⟨q, cr, pr, _, _, h3, _, h13, h90⟩ :=
    RiskScorer.risk_entry ds m hm hmpos hwf i hi
  have hq0 : 0 < q := by linarith
  have hq100 : q ≤ 100 := by linarith
  have hlen : i < (RiskScorer.calculate_risk_score ds).length := by
    simpa [RiskScorer.calculate_risk_score] using hi
  have hget : (RiskScorer.calculate_risk_score ds).get ⟨i, hlen⟩ = F.fin q := by
    rw [List.get_eq_getElem,
      ← List.getD_eq_getElem (RiskScorer.calculate_risk_score ds) F.nan hlen]
    exact h3
  have hcat : (RiskScorer.get_risk_categories ds).getD i none
      = RiskScorer.cutRisk (F.fin q) := by
    unfold RiskScorer.get_risk_categories
    rw [getD_map_eq _ _ _ hlen _, hget]
  refine ⟨q, h3, hq0, hq100, ?_, fun h0 => absurd h0 (ne_of_gt hq0)⟩
  rw [hcat]
  simp only [RiskScorer.cutRisk]
  rw [if_neg (not_le.mpr hq0)]
  split_ifs <;> first | rfl | (exfalso; linarith)

/-- Witness for C2 on the one-row dataset `dsOne`. -/
theorem risk_categories_bucketing_witness :
    maxTenure dsOne = F.fin 10 ∧ (0 : ℚ) < 10 ∧ RiskWF dsOne ∧ 0 < dsOne.length ∧
      (∃ q : ℚ,
        (RiskScorer.calculate_risk_score dsOne).getD 0 F.nan = F.fin q ∧ 0 < q ∧ q ≤ 100 ∧
        (RiskScorer.get_risk_categories dsOne).getD 0 none =
          some (if q ≤ 30 then RiskScorer.RiskCat.low
                else if q ≤ 60 then RiskScorer.RiskCat.medium
                else RiskScorer.RiskCat.high) ∧
        (q = 0 → (RiskScorer.get_risk_categories dsOne).getD 0 none =
          some RiskScorer.RiskCat.low)) :=
  ⟨by decide, by norm_num, by unfold RiskWF; decide, by decide,
    risk_categories_bucketing dsOne 10 (by decide) (by norm_num)
      (by unfold RiskWF; decide) 0 (by decide)⟩

/-! ## C6: basic CLV -/

/-- C6: For every record, the basic CLV equals
`monthly_charges × tenure` exactly. -/
theorem basic_clv_exact (ds : Dataset) (i : ℕ) (hi : i < ds.length) :
    (CLVAnalyzer.calculate_basic_clv ds).getD i 0 =
      (ds.get ⟨i, hi⟩).monthlyCharges * (ds.get ⟨i, hi⟩).tenure := by
  unfold CLVAnalyzer.calculate_basic_clv
  exact getD_map_eq _ _ _ hi _

/-- Witness for C6 on `dsOne`. -/
theorem basic_clv_exact_witness :
    0 < dsOne.length ∧
      (CLVAnalyzer.calculate_basic_clv dsOne).getD 0 0 =
        (dsOne.get ⟨0, by decide⟩).monthlyCharges * (dsOne.get ⟨0, by decide⟩).tenure :=
  ⟨by decide, basic_clv_exact dsOne 0 (by decide)⟩

/-! ## C10: unknown categorical values propagate NaN -/

theorem paymentRisk_nan (s : String)
    (h : s ∉ (["Electronic check", "Mailed check", "Bank transfer (automatic)",
      "Credit card (automatic)"] : List String)) :
    RiskScorer.paymentRisk s = F.nan := by
  simp only [List.mem_cons, List.not_mem_nil, or_false, not_or] at h
  obtain ⟨h1, h2, h3, h4⟩ := h
  unfold RiskScorer.paymentRisk
  rw [if_neg h1, if_neg h2, if_neg h3, if_neg h4]

theorem contractRisk_nan (s : String)
    (h : s ∉ (["Month-to-Month", "One Year", "Two Year"] : List String)) :
    RiskScorer.contractRisk s = F.nan := by
  simp only [List.mem_cons, List.not_mem_nil, or_false, not_or] at h
  obtain ⟨h1, h2, h3⟩ := h
  unfold RiskScorer.contractRisk
  rw [if_neg h1, if_neg h2, if_neg h3]

theorem rowRiskScore_nan_payment (mt : F) (r : CustomerRecord)
    (h : RiskScorer.paymentRisk r.paymentMethod = F.nan) :
    RiskScorer.rowRiskScore mt r = F.nan := by
  unfold RiskScorer.rowRiskScore
  rw [h]
  simp

theorem rowRiskScore_nan_contract (mt : F) (r : CustomerRecord)
    (h : RiskScorer.contractRisk r.contractType = F.nan) :
    RiskScorer.rowRiskScore mt r = F.nan := by
  unfold RiskScorer.rowRiskScore
  rw [h]
  simp

/-- C10: If a record's `PaymentMethod` is outside the payment lookup
table (or its `ContractType` outside the contract table),
`calculate_risk_score` still yields one value per record (no error),
and that record's entry is `NaN`, which does not lie in `[0,100]`. -/
theorem unknown_category_yields_nan (ds : Dataset) (i : ℕ) (hi : i < ds.length)
    (hbad : (ds.get ⟨i, hi⟩).paymentMethod ∉ (["Electronic check", "Mailed check",
        "Bank transfer (automatic)", "Credit card (automatic)"] : List String) ∨
      (ds.get ⟨i, hi⟩).contractType ∉
        (["Month-to-Month", "One Year", "Two Year"] : List String)) :
    (RiskScorer.calculate_risk_score ds).length = ds.length ∧
    (RiskScorer.calculate_risk_score ds).getD i F.nan = F.nan ∧
    ∀ q : ℚ, ¬((RiskScorer.calculate_risk_score ds).getD i F.nan = F.fin q ∧
      0 ≤ q ∧ q ≤ 100) := by
  have hentry : (RiskScorer.calculate_risk_score ds).getD i F.nan
      = RiskScorer.rowRiskScore (maxTenure ds) (ds.get ⟨i, hi⟩) := by
    unfold RiskScorer.calculate_risk_score
    exact getD_map_eq _ _ _ hi _
  have hnan : RiskScorer.rowRiskScore (maxTenure ds) (ds.get ⟨i, hi⟩) = F.nan := by
    rcases hbad with h | h
    · exact rowRiskScore_nan_payment _ _ (paymentRisk_nan _ h)
    · exact rowRiskScore_nan_contract _ _ (contractRisk_nan _ h)
  refine ⟨by simp [RiskScorer.calculate_risk_score], hentry.trans hnan, ?_⟩
  intro q hq
  rw [hentry.trans hnan] at hq
  exact F.noConfusion hq.1

/-- Witness for C10: the seeder's spelling `"Electronic Check"` is not
in the lookup table, so the row's score is `NaN`. -/
theorem unknown_category_yields_nan_witness :
    0 < dsBadPay.length ∧
      ((dsBadPay.get ⟨0, by decide⟩).paymentMethod ∉ (["Electronic check", "Mailed check",
          "Bank transfer (automatic)", "Credit card (automatic)"] : List String) ∨
        (dsBadPay.get ⟨0, by decide⟩).contractType ∉
          (["Month-to-Month", "One Year", "Two Year"] : List String)) ∧
      ((RiskScorer.calculate_risk_score dsBadPay).length = dsBadPay.length ∧
       (RiskScorer.calculate_risk_score dsBadPay).getD 0 F.nan = F.nan ∧
       ∀ q : ℚ, ¬((RiskScorer.calculate_risk_score dsBadPay).getD 0 F.nan = F.fin q ∧
         0 ≤ q ∧ q ≤ 100)) :=
  ⟨by decide, Or.inl (by decide),
    unknown_category_yields_nan dsBadPay 0 (by decide) (Or.inl (by decide))⟩

/-! ## C8: engagement score formula and range -/

theorem serviceCount_bounds (r : CustomerRecord) :
    0 ≤ EngagementAnalyzer.serviceCount r ∧ EngagementAnalyzer.serviceCount r ≤ 4 := by
  unfold EngagementAnalyzer.serviceCount
  split_ifs <;> norm_num

theorem contractScore_of_mem (s : String)
    (h : s ∈ (["Month-to-Month", "One Year", "Two Year"] : List String)) :
    ∃ cs : ℚ, EngagementAnalyzer.contractScore s = F.fin cs ∧
      (cs = 33 ∨ cs = 66 ∨ cs = 100) := by
  simp only [List.mem_cons, List.not_mem_nil, or_false] at h
  rcases h with h | h | h <;> subst h
  · exact ⟨33, by decide, Or.inl rfl⟩
  · exact ⟨66, by decide, Or.inr (Or.inl rfl)⟩
  · exact ⟨100, by decide, Or.inr (Or.inr rfl)⟩

/-- C8: Under the engagement preconditions (known contract vocabulary,
non-negative tenure, positive dataset maximum tenure), each record's
engagement score equals `0.4*service_score + 0.3*tenure_score +
0.3*contract_score` with `service_score = count/4*100`,
`tenure_score = tenure/max_tenure*100` and the contract lookup
`{Month-to-Month: 33, One Year: 66, Two Year: 100}`, and the result
lies in `[0,100]`. -/
theorem engagement_score_formula_and_range (ds : Dataset) (m : ℚ)
    (hm : maxTenure ds = F.fin m) (hmpos : 0 < m) (hwf : EngWF ds)
    (i : ℕ) (hi : i < ds.length) :
    ∃ q cs : ℚ,
      EngagementAnalyzer.contractScore (ds.get ⟨i, hi⟩).contractType = F.fin cs ∧
      (EngagementAnalyzer.calculate_engagement_score ds).getD i F.nan = F.fin q ∧
      q = 0.4 * (EngagementAnalyzer.serviceCount (ds.get ⟨i, hi⟩) / 4 * 100) +
          0.3 * ((ds.get ⟨i, hi⟩).tenure / m * 100) + 0.3 * cs ∧
      0 ≤ q ∧ q ≤ 100 := by
  obtain ⟨hct, ht0⟩ := hwf (ds.get ⟨i, hi⟩) (List.get_mem ds i hi)
  have htm : (ds.get ⟨i, hi⟩).tenure ≤ m :=
    tenure_le_max ds m hm _ (List.get_mem ds i hi)
  obtain ⟨cs, hcseq, hcsv⟩ := contractScore_of_mem _ hct
  have hentry : (EngagementAnalyzer.calculate_engagement_score ds).getD i F.nan
      = EngagementAnalyzer.rowEngagement (maxTenure ds) (ds.get ⟨i, hi⟩) := by
    unfold EngagementAnalyzer.calculate_engagement_score
    exact getD_map_eq _ _ _ hi _
  rw [hm] at hentry
  have hrow : EngagementAnalyzer.rowEngagement (F.fin m) (ds.get ⟨i, hi⟩) =
      F.fin (EngagementAnalyzer.serviceScore (ds.get ⟨i, hi⟩) * 0.4 +
        (ds.get ⟨i, hi⟩).tenure / m * 100 * 0.3 + cs * 0.3) := by
    unfold EngagementAnalyzer.rowEngagement EngagementAnalyzer.tenureScore
    rw [hcseq, F.div_fin_fin_of_ne _ _ (ne_of_gt hmpos)]
    simp only [F.mul_fin_fin, F.add_fin_fin]
  obtain ⟨hsc0, hsc4⟩ := serviceCount_bounds (ds.get ⟨i, hi⟩)
  have hx0 : 0 ≤ (ds.get ⟨i, hi⟩).tenure / m := div_nonneg ht0 (le_of_lt hmpos)
  have hx1 : (ds.get ⟨i, hi⟩).tenure / m ≤ 1 := (div_le_one hmpos).mpr htm
  have hcs1 : 33 ≤ cs := by rcases hcsv with h | h | h <;> rw [h] <;> norm_num
  have hcs2 : cs ≤ 100 := by rcases hcsv with h | h | h <;> rw [h] <;> norm_num
  refine ⟨_, cs, hcseq, hentry.trans hrow, ?_, ?_, ?_⟩
  · unfold EngagementAnalyzer.serviceScore
    ring
  · unfold EngagementAnalyzer.serviceScore
    nlinarith [hsc0, hx0, hcs1]
  · unfold EngagementAnalyzer.serviceScore
    nlinarith [hsc4, hx1, hcs2]

/-- Witness for C8 on `dsOne`. -/
theorem engagement_score_formula_and_range_witness :
    maxTenure dsOne = F.fin 10 ∧ (0 : ℚ) < 10 ∧ EngWF dsOne ∧ 0 < dsOne.length ∧
      (∃ q cs : ℚ,
        EngagementAnalyzer.contractScore (dsOne.get ⟨0, by decide⟩).contractType = F.fin cs ∧
        (EngagementAnalyzer.calculate_engagement_score dsOne).getD 0 F.nan = F.fin q ∧
        q = 0.4 * (EngagementAnalyzer.serviceCount (dsOne.get ⟨0, by decide⟩) / 4 * 100) +
            0.3 * ((dsOne.get ⟨0, by decide⟩).tenure / 10 * 100) + 0.3 * cs ∧
        0 ≤ q ∧ q ≤ 100) :=
  ⟨by decide, by norm_num, by unfold EngWF; decide, by decide,
    engagement_score_formula_and_range dsOne 10 (by decide) (by norm_num)
      (by unfold EngWF; decide) 0 (by decide)⟩

/-! ## C3: predictor untrained-state errors -/

/-- C3: On a freshly constructed `ChurnPredictor` (no `train` call),
`predict` and `get_top_features` both fail with the InvalidStateError
of the error taxonomy, for every input. -/
theorem untrained_predictor_errors :
    ∀ (X : List (List ℚ)) (n : ℕ),
      ChurnPredictor.init.predict X = .error PipelineError.invalidStateError ∧
      ChurnPredictor.init.get_top_features n = .error PipelineError.invalidStateError :=
  fun _ _ => ⟨rfl, rfl⟩

/-! ## C5: segmentation feature-count guard -/

/-- C5: Selecting fewer than 2 features makes the segmentation page
fail with the ValidationError (it returns before any segment id is
assigned). -/
theorem segmentation_too_few_features (df : Segmentation.PageDf)
    (features : List String) (h : features.length < 2) :
    Segmentation.renderSegmentationPrep df features =
      .error PipelineError.validationError := by
  unfold Segmentation.renderSegmentationPrep
  rw [if_pos h]

/-- Witness for C5: one selected feature is rejected. -/
theorem segmentation_too_few_features_witness :
    (["Tenure"] : List String).length < 2 ∧
      Segmentation.renderSegmentationPrep [] ["Tenure"] =
        .error PipelineError.validationError :=
  ⟨by decide, segmentation_too_few_features [] ["Tenure"] (by decide)⟩

/-! ## C4: missing target column in prepare_model_data -/

theorem transformCols_names (df : Df) :
    (transformCols df).map (fun c => c.1) = df.map (fun c => c.1) := by
  induction df with
  | nil => rfl
  | cons c rest ih =>
    obtain ⟨n, cd⟩ := c
    cases cd <;> simpa [transformCols] using ih

theorem lookupCol_none (df : Df) (k : String)
    (h : k ∉ df.map (fun c => c.1)) : lookupCol df k = none := by
  have hfind : df.find? (fun c => decide (c.1 = k)) = none := by
    rw [List.find?_eq_none]
    intro c hc
    simp only [decide_eq_true_eq]
    intro hk
    exact h (hk ▸ List.mem_map_of_mem (fun c => c.1) hc)
  unfold lookupCol
  rw [hfind]

theorem mem_of_mem_dropCols (df : Df) (names : List String) (c : String × ColData)
    (hc : c ∈ dropCols df names) : c ∈ df :=
  (List.mem_filter.mp hc).1

theorem fitEncoders_numeric (encs : List (String × List String)) (df : Df)
    (h : ∀ c ∈ df, ∃ vs, c.2 = ColData.numCol vs) : fitEncoders encs df = encs := by
  induction df generalizing encs with
  | nil => rfl
  | cons c rest ih =>
    obtain ⟨n, cd⟩ := c
    obtain ⟨vs, hvs⟩ := h (n, cd) (List.mem_cons_self _ _)
    cases cd with
    | strCol _ => exact absurd hvs (by simp)
    | numCol _ =>
        simp only [fitEncoders]
        exact ih encs (fun c hc => h c (List.mem_cons_of_mem _ hc))

/-- C4 counterexample: with the single object column `Gender` and the
absent target `Churn`, `prepare_model_data` does fail, but the
label-encoder collection is *not* the same afterwards — the `Gender`
encoder fitted before the failure remains stored.  This refutes the
claim's "no partial state is produced". -/
theorem prepare_missing_target_counterexample :
    (DataProcessor.init.prepare_model_data dfGender "Churn").2 =
      .error PipelineError.dataPreparationError ∧
    (DataProcessor.init.prepare_model_data dfGender "Churn").1.label_encoders =
      [("Gender", ["Male"])] ∧
    (DataProcessor.init.prepare_model_data dfGender "Churn").1.label_encoders ≠
      DataProcessor.init.label_encoders :=
  ⟨rfl, rfl, by decide⟩

/-- C4 (amended): For every dataset and absent target column,
`prepare_model_data` fails with the DataPreparationError and leaves the
stored scaler unchanged; the label-encoder collection, however, keeps
the encoders fitted for the categorical columns before the failure (in
particular it is unchanged when the dataset has no categorical
columns). -/
theorem prepare_missing_target_state (proc : DataProcessor) (df : Df) (target : String)
    (htgt : target ∉ df.map (fun c => c.1)) :
    (proc.prepare_model_data df target).2 = .error PipelineError.dataPreparationError ∧
    (proc.prepare_model_data df target).1.scaler = proc.scaler ∧
    ((∀ c ∈ df, ∃ vs, c.2 = ColData.numCol vs) →
      (proc.prepare_model_data df target).1.label_encoders = proc.label_encoders) := by
  have hnames : target ∉
      (transformCols (dropCols df ["CustomerID", "LastUpdate"])).map (fun c => c.1) := by
    rw [transformCols_names]
    intro hmem
    obtain ⟨c, hc, hceq⟩ := List.mem_map.mp hmem
    exact htgt (hceq ▸ List.mem_map_of_mem _ (mem_of_mem_dropCols _ _ _ hc))
  have hlook : lookupCol (transformCols (dropCols df ["CustomerID", "LastUpdate"])) target
      = none := lookupCol_none _ _ hnames
  refine ⟨?_, ?_, ?_⟩
  · simp only [DataProcessor.prepare_model_data, hlook]
  · simp only [DataProcessor.prepare_model_data, hlook]
  · intro hnum
    simp only [DataProcessor.prepare_model_data, hlook]
    exact fitEncoders_numeric _ _
      (fun c hc => hnum c (mem_of_mem_dropCols _ _ _ hc))

/-- Witness for the amended C4 on the all-numeric dataframe
`dfNumOnly`. -/
theorem prepare_missing_target_witness :
    ("Churn" ∉ dfNumOnly.map (fun c => c.1)) ∧
      ((DataProcessor.init.prepare_model_data dfNumOnly "Churn").2 =
        .error PipelineError.dataPreparationError ∧
      (DataProcessor.init.prepare_model_data dfNumOnly "Churn").1.scaler =
        DataProcessor.init.scaler ∧
      ((∀ c ∈ dfNumOnly, ∃ vs, c.2 = ColData.numCol vs) →
        (DataProcessor.init.prepare_model_data dfNumOnly "Churn").1.label_encoders =
          DataProcessor.init.label_encoders)) :=
  ⟨by decide, prepare_missing_target_state DataProcessor.init dfNumOnly "Churn" (by decide)⟩

/-! ## C7: quartile value segmentation -/

namespace CLVAnalyzer

theorem ratFloor_eq_floor (q : ℚ) : Rat.floor q = ⌊q⌋ := by
  rw [Rat.floor_def', Rat.floor_def]

theorem ratFloor_natCast (k : ℕ) : Rat.floor ((k : ℕ) : ℚ) = (k : ℤ) := by
  rw [ratFloor_eq_floor]
  exact_mod_cast Int.floor_natCast k

theorem interpAt_natCast (xs : List ℚ) (k : ℕ) :
    interpAt xs (k : ℚ) = xs.getD k 0 := by
  simp [interpAt, ratFloor_natCast]

theorem qcutEdges_getD_zero (tcs : List ℚ) :
    (qcutEdges tcs).getD 0 0 = (tcs.insertionSort (· ≤ ·)).getD 0 0 := by
  have h : (qcutEdges tcs).getD 0 0
      = interpAt (tcs.insertionSort (· ≤ ·))
          (((0 : ℕ) : ℚ) * (((tcs.length : ℚ) - 1) / 4)) := rfl
  rw [h, Nat.cast_zero, zero_mul]
  simpa using interpAt_natCast (tcs.insertionSort (· ≤ ·)) 0

theorem qcutEdges_getD_four (tcs : List ℚ) (h1 : 1 ≤ tcs.length) :
    (qcutEdges tcs).getD 4 0 = (tcs.insertionSort (· ≤ ·)).getD (tcs.length - 1) 0 := by
  have h : (qcutEdges tcs).getD 4 0
      = interpAt (tcs.insertionSort (· ≤ ·))
          (((4 : ℕ) : ℚ) * (((tcs.length : ℚ) - 1) / 4)) := rfl
  have hp : ((4 : ℕ) : ℚ) * (((tcs.length : ℚ) - 1) / 4) = ((tcs.length - 1 : ℕ) : ℚ) := by
    rw [Nat.cast_sub h1]
    push_cast
    ring
  rw [h, hp, interpAt_natCast]

theorem sorted_getD_zero_le (l : List ℚ) (hs : l.Sorted (· ≤ ·)) :
    ∀ x ∈ l, l.getD 0 0 ≤ x := by
  cases l with
  | nil => intro x hx; cases hx
  | cons y ys =>
    intro x hx
    rcases List.mem_cons.mp hx with h | h
    · subst h; exact le_refl x
    · exact (List.sorted_cons.mp hs).1 x h

theorem sorted_le_getD_last : ∀ l : List ℚ, l.Sorted (· ≤ ·) →
    ∀ x ∈ l, x ≤ l.getD (l.length - 1) 0
  | [], _, x, hx => absurd hx (List.not_mem_nil x)
  | [y], _, x, hx => by
      simp only [List.mem_singleton] at hx
      subst hx
      exact le_refl x
  | y :: z :: zs, hs, x, hx => by
      have hs' := List.sorted_cons.mp hs
      have hmem : (z :: zs).getD ((z :: zs).length - 1) 0 ∈ z :: zs := by
        rw [List.getD_eq_getElem _ _ (by simp)]
        exact List.getElem_mem _
      rcases List.mem_cons.mp hx with h | h
      · subst h
        simpa using hs'.1 _ hmem
      · simpa using sorted_le_getD_last (z :: zs) hs'.2 x h

theorem qcut_first_last (tcs : List ℚ) (h1 : 1 ≤ tcs.length) :
    ∀ v ∈ tcs, (qcutEdges tcs).getD 0 0 ≤ v ∧ v ≤ (qcutEdges tcs).getD 4 0 := by
  intro v hv
  have hsorted : List.Sorted (· ≤ ·) (tcs.insertionSort (· ≤ ·)) :=
    List.sorted_insertionSort _ _
  have hperm : List.Perm (tcs.insertionSort (· ≤ ·)) tcs := List.perm_insertionSort _ _
  have hvmem : v ∈ tcs.insertionSort (· ≤ ·) := hperm.mem_iff.mpr hv
  have hlen : (tcs.insertionSort (· ≤ ·)).length = tcs.length := hperm.length_eq
  constructor
  · rw [qcutEdges_getD_zero]
    exact sorted_getD_zero_le _ hsorted v hvmem
  · rw [qcutEdges_getD_four _ h1]
    have := sorted_le_getD_last _ hsorted v hvmem
    rwa [hlen] at this

theorem qcutAssign_total (es : List ℚ) (v : ℚ)
    (h0 : es.getD 0 0 ≤ v) (h4 : v ≤ es.getD 4 0) :
    ∃ g, qcutAssign es v = some g := by
  unfold qcutAssign
  split_ifs with h1 h2 h3 h5
  · exact absurd h1 (not_lt.mpr h0)
  · exact ⟨_, rfl⟩
  · exact ⟨_, rfl⟩
  · exact ⟨_, rfl⟩
  · exact ⟨_, rfl⟩

theorem qcutAssign_eq_bronze (es : List ℚ) (v : ℚ)
    (h : qcutAssign es v = some VSeg.bronze) : v ≤ es.getD 1 0 := by
  unfold qcutAssign at h
  split_ifs at h with h0 h1 h2 h3 h4 <;> first | exact h1 | simp at h

theorem qcutAssign_eq_silver (es : List ℚ) (v : ℚ)
    (h : qcutAssign es v = some VSeg.silver) :
    es.getD 1 0 < v ∧ v ≤ es.getD 2 0 := by
  unfold qcutAssign at h
  split_ifs at h with h0 h1 h2 h3 h4 <;>
    first | exact ⟨not_le.mp h1, h2⟩ | simp at h

theorem qcutAssign_eq_gold (es : List ℚ) (v : ℚ)
    (h : qcutAssign es v = some VSeg.gold) :
    es.getD 1 0 < v ∧ es.getD 2 0 < v ∧ v ≤ es.getD 3 0 := by
  unfold qcutAssign at h
  split_ifs at h with h0 h1 h2 h3 h4 <;>
    first | exact ⟨not_le.mp h1, not_le.mp h2, h3⟩ | simp at h

theorem qcutAssign_eq_platinum (es : List ℚ) (v : ℚ)
    (h : qcutAssign es v = some VSeg.platinum) :
    es.getD 1 0 < v ∧ es.getD 2 0 < v ∧ es.getD 3 0 < v := by
  unfold qcutAssign at h
  split_ifs at h with h0 h1 h2 h3 h4 <;>
    first | exact ⟨not_le.mp h1, not_le.mp h2, not_le.mp h3⟩ | simp at h

theorem qcutAssign_mono (es : List ℚ) (vi vj : ℚ) (g g' : VSeg)
    (hgi : qcutAssign es vi = some g) (hgj : qcutAssign es vj = some g')
    (hrank : g.rank < g'.rank) : vi < vj := by
  cases g with
  | bronze =>
    have h1 := qcutAssign_eq_bronze _ _ hgi
    cases g' with
    | bronze => simp [VSeg.rank] at hrank
    | silver => have h2 := qcutAssign_eq_silver _ _ hgj; linarith [h2.1]
    | gold => have h2 := qcutAssign_eq_gold _ _ hgj; linarith [h2.1]
    | platinum => have h2 := qcutAssign_eq_platinum _ _ hgj; linarith [h2.1]
  | silver =>
    have h1 := qcutAssign_eq_silver _ _ hgi
    cases g' with
    | bronze => simp [VSeg.rank] at hrank
    | silver => simp [VSeg.rank] at hrank
    | gold => have h2 := qcutAssign_eq_gold _ _ hgj; linarith [h1.2, h2.2.1]
    | platinum => have h2 := qcutAssign_eq_platinum _ _ hgj; linarith [h1.2, h2.2.1]
  | gold =>
    have h1 := qcutAssign_eq_gold _ _ hgi
    cases g' with
    | bronze => simp [VSeg.rank] at hrank
    | silver => simp [VSeg.rank] at hrank
    | gold => simp [VSeg.rank] at hrank
    | platinum => have h2 := qcutAssign_eq_platinum _ _ hgj; linarith [h1.2.2, h2.2.2]
  | platinum =>
    cases g' with
    | bronze => simp [VSeg.rank] at hrank
    | silver => simp [VSeg.rank] at hrank
    | gold => simp [VSeg.rank] at hrank
    | platinum => simp [VSeg.rank] at hrank

theorem count_partition (l : List (CustomerRecord × Option VSeg))
    (hall : ∀ p ∈ l, ∃ g, p.2 = some g) :
    (l.filter (fun p => decide (p.2 = some VSeg.bronze))).length +
    (l.filter (fun p => decide (p.2 = some VSeg.silver))).length +
    (l.filter (fun p => decide (p.2 = some VSeg.gold))).length +
    (l.filter (fun p => decide (p.2 = some VSeg.platinum))).length = l.length := by
  induction l with
  | nil => simp
  | cons p l ih =>
    obtain ⟨g, hg⟩ := hall p (List.mem_cons_self _ _)
    have ih' := ih (fun q hq => hall q (List.mem_cons_of_mem _ hq))
    cases g <;> simp [List.filter_cons, hg] <;> omega

end CLVAnalyzer

/-- C7 counterexample: four records with identical `TotalCharges`
(quartile bin edges all coincide) make `segment_value_analysis` raise
instead of partitioning the records, refuting the claim for arbitrary
datasets with at least 4 records. -/
theorem quartile_segmentation_counterexample :
    dsQuartDup.length = 4 ∧
      CLVAnalyzer.segment_value_analysis dsQuartDup =
        .error "Bin edges must be unique" :=
  ⟨rfl, by decide⟩

/-- C7 (amended): Whenever the quartile bin edges of `TotalCharges` are
pairwise distinct — i.e. `segment_value_analysis` succeeds, which a
dataset of at least 4 records no longer guarantees — every record gets
exactly one of the four labels, the labels are ascending in
`TotalCharges`, the four groups disjointly cover all records, and the
summary reports mean monthly charges, mean tenure, mean churn and total
revenue per group. -/
theorem quartile_segmentation (ds : Dataset) (h4 : 4 ≤ ds.length)
    (labels : List (Option CLVAnalyzer.VSeg))
    (summ : List (CLVAnalyzer.VSeg × CLVAnalyzer.SegRow))
    (hok : CLVAnalyzer.segment_value_analysis ds = .ok (labels, summ)) :
    quartilePartitionSpec ds labels summ := by
  have h1 : 1 ≤ (ds.map (fun r => r.totalCharges)).length := by
    simp only [List.length_map]
    omega
  have hb := CLVAnalyzer.qcut_first_last (ds.map (fun r => r.totalCharges)) h1
  unfold CLVAnalyzer.segment_value_analysis at hok
  by_cases hdup : (CLVAnalyzer.qcutEdges (ds.map (fun r => r.totalCharges))).dedup.length ≠
      (CLVAnalyzer.qcutEdges (ds.map (fun r => r.totalCharges))).length
  · rw [if_pos hdup] at hok
    exact absurd hok (by simp)
  · rw [if_neg hdup] at hok
    simp only [Except.ok.injEq, Prod.mk.injEq] at hok
    obtain ⟨hl, hsm⟩ := hok
    subst hl
    subst hsm
    have hcover : ∀ r ∈ ds, ∃ g,
        CLVAnalyzer.qcutAssign
          (CLVAnalyzer.qcutEdges (ds.map (fun r => r.totalCharges)))
          r.totalCharges = some g := by
      intro r hr
      have hv : r.totalCharges ∈ ds.map (fun r => r.totalCharges) :=
        List.mem_map_of_mem _ hr
      exact CLVAnalyzer.qcutAssign_total _ _ (hb _ hv).1 (hb _ hv).2
    have hgetD : ∀ i : ℕ, ∀ hi : i < ds.length,
        (CLVAnalyzer.segLabels ds).getD i none =
          CLVAnalyzer.qcutAssign
            (CLVAnalyzer.qcutEdges (ds.map (fun r => r.totalCharges)))
            (ds.get ⟨i, hi⟩).totalCharges := by
      intro i hi
      unfold CLVAnalyzer.segLabels
      exact getD_map_eq _ _ _ hi _
    refine ⟨by simp [CLVAnalyzer.segLabels], ?_, ?_, ?_, rfl⟩
    · intro i hi
      rw [hgetD i hi]
      exact hcover _ (List.get_mem ds i hi)
    · intro g g' i j hi hj hgi hgj hrank
      rw [hgetD i hi] at hgi
      rw [hgetD j hj] at hgj
      exact CLVAnalyzer.qcutAssign_mono _ _ _ _ _ hgi hgj hrank
    · have hall : ∀ p ∈ ds.zip (CLVAnalyzer.segLabels ds), ∃ g, p.2 = some g := by
        intro p hp
        have hp2 : p.2 ∈ CLVAnalyzer.segLabels ds := (List.mem_zip hp).2
        obtain ⟨r, hr, heq⟩ := List.mem_map.mp hp2
        obtain ⟨g, hg⟩ := hcover r hr
        exact ⟨g, by rw [← heq, hg]⟩
      have hc := CLVAnalyzer.count_partition (ds.zip (CLVAnalyzer.segLabels ds)) hall
      have hz : (ds.zip (CLVAnalyzer.segLabels ds)).length = ds.length := by
        simp [CLVAnalyzer.segLabels]
      rw [CLVAnalyzer.allSegs]
      simp only [List.map_cons, List.map_nil, List.sum_cons, List.sum_nil,
        CLVAnalyzer.segGroup, List.length_map]
      omega

/-- Witness for the amended C7 on the four-row dataset `dsQuart`. -/
theorem quartile_segmentation_witness :
    4 ≤ dsQuart.length ∧
      CLVAnalyzer.segment_value_analysis dsQuart = .ok (quartLabels, quartSumm) ∧
      quartilePartitionSpec dsQuart quartLabels quartSumm :=
  ⟨by decide, by decide,
    quartile_segmentation dsQuart (by decide) quartLabels quartSumm (by decide)⟩

/-! ## C9: derived-column mutations preserve base fields -/

namespace Cols

theorem base_ne_derived : ∀ k ∈ baseSchema,
    k ≠ "CLV" ∧ k ≠ "ARPU" ∧ k ≠ "ServiceUsageScore" ∧ k ≠ "ValueSegment" := by
  decide

theorem setCol_ne (k k' : String) (v : Option Value) (r : Row) (h : k' ≠ k) :
    setCol k v r k' = r k' := by
  simp [setCol, h]

theorem preserved_refl (ds : List Row) : Preserved ds ds :=
  ⟨rfl, fun _ _ _ => rfl⟩

theorem preserved_of_mapM (Fn : Row → Option Row)
    (hF : ∀ r r', Fn r = some r' → ∀ k ∈ baseSchema, r' k = r k) :
    ∀ ds ds', ds.mapM Fn = some ds' → Preserved ds ds' := by
  intro ds
  induction ds with
  | nil =>
    intro ds' h
    rw [List.mapM_nil] at h
    injection h with h
    subst h
    exact preserved_refl []
  | cons a l ih =>
    intro ds' h
    rw [List.mapM_cons] at h
    cases hFa : Fn a with
    | none => rw [hFa] at h; exact absurd h (by simp)
    | some b =>
      cases hl : l.mapM Fn with
      | none => rw [hFa, hl] at h; exact absurd h (by simp)
      | some bs =>
        rw [hFa, hl] at h
        simp at h
        subst h
        have hrest := ih bs hl
        refine ⟨by simpa using hrest.1, ?_⟩
        intro i k hk
        cases i with
        | zero => simpa using hF a b hFa k hk
        | succ n => simpa using hrest.2 n k hk

theorem basicClv_row_frame (r r' : Row)
    (h : (do
      let m ← getNum r "MonthlyCharges"
      let t ← getNum r "Tenure"
      pure (setCol "CLV" (some (Value.num (m * t))) r)) = some r') :
    ∀ k ∈ baseSchema, r' k = r k := by
  intro k hk
  obtain ⟨h1, _, _, _⟩ := base_ne_derived k hk
  cases hm : getNum r "MonthlyCharges" with
  | none => rw [hm] at h; exact absurd h (by simp)
  | some m =>
    cases ht : getNum r "Tenure" with
    | none => rw [hm, ht] at h; exact absurd h (by simp)
    | some t =>
      rw [hm, ht] at h
      simp at h
      subst h
      exact setCol_ne _ _ _ _ h1

theorem metrics_row_frame (r r' : Row)
    (h : (do
      let m ← getNum r "MonthlyCharges"
      let t ← getNum r "Tenure"
      let tot ← getNum r "TotalCharges"
      let s ← svcCount r
      let r1 := setCol "CLV" (some (Value.num (m * t))) r
      let r2 := setCol "ARPU" (some (Value.num (tot / max t 1))) r1
      pure (setCol "ServiceUsageScore" (some (Value.num s)) r2)) = some r') :
    ∀ k ∈ baseSchema, r' k = r k := by
  intro k hk
  obtain ⟨h1, h2, h3, _⟩ := base_ne_derived k hk
  cases hm : getNum r "MonthlyCharges" with
  | none => rw [hm] at h; exact absurd h (by simp)
  | some m =>
    cases ht : getNum r "Tenure" with
    | none => rw [hm, ht] at h; exact absurd h (by simp)
    | some t =>
      cases htot : getNum r "TotalCharges" with
      | none => rw [hm, ht, htot] at h; exact absurd h (by simp)
      | some tot =>
        cases hs : svcCount r with
        | none => rw [hm, ht, htot, hs] at h; exact absurd h (by simp)
        | some s =>
          rw [hm, ht, htot, hs] at h
          simp at h
          subst h
          rw [setCol_ne _ _ _ _ h3, setCol_ne _ _ _ _ h2, setCol_ne _ _ _ _ h1]

end Cols

/-- C9: The three derived-column mutations — basic CLV
(`df['CLV'] = ...`), value-segment labelling (`df['ValueSegment'] =
pd.qcut(...)`), and the customer-metrics computation adding
`CLV`/`ARPU`/`ServiceUsageScore` — leave every base-schema field of
every existing record unchanged whenever they succeed: dataset mutation
is append-only for derived columns. -/
theorem derived_columns_frame (ds ds' : List Cols.Row) :
    (Cols.basicClvOp ds = some ds' → Cols.Preserved ds ds') ∧
    (Cols.valueSegmentOp ds = some ds' → Cols.Preserved ds ds') ∧
    (Cols.customerMetricsOp ds = some ds' → Cols.Preserved ds ds') := by
  refine ⟨?_, ?_, ?_⟩
  · exact Cols.preserved_of_mapM _ Cols.basicClv_row_frame ds ds'
  · intro h
    unfold Cols.valueSegmentOp at h
    cases htcs : ds.mapM (fun r => Cols.getNum r "TotalCharges") with
    | none => rw [htcs] at h; exact absurd h (by simp)
    | some tcs =>
      rw [htcs] at h
      simp at h
      obtain ⟨-, h⟩ := h
      subst h
      refine ⟨by simp, ?_⟩
      intro i k hk
      obtain ⟨_, _, _, h4⟩ := Cols.base_ne_derived k hk
      by_cases hi : i < ds.length
      · rw [getD_map_eq _ _ _ hi, List.getD_eq_getElem _ _ hi, List.get_eq_getElem]
        exact Cols.setCol_ne _ _ _ _ h4
      · rw [List.getD_eq_default _ _ (by simpa using not_lt.mp hi),
          List.getD_eq_default _ _ (not_lt.mp hi)]
  · exact Cols.preserved_of_mapM _ Cols.metrics_row_frame ds ds'

/-- Witness for C9: the three mutations applied to the concrete keyed
dataset `dsKEx`. -/
theorem derived_columns_frame_witness :
    (Cols.basicClvOp dsKEx = some dsKEx1 ∧ Cols.Preserved dsKEx dsKEx1) ∧
    (Cols.valueSegmentOp dsKEx = some dsKEx2 ∧ Cols.Preserved dsKEx dsKEx2) ∧
    (Cols.customerMetricsOp dsKEx = some dsKEx3 ∧ Cols.Preserved dsKEx dsKEx3) :=
  ⟨⟨rfl, (derived_columns_frame dsKEx dsKEx1).1 rfl⟩,
   ⟨rfl, (derived_columns_frame dsKEx dsKEx2).2.1 rfl⟩,
   ⟨rfl, (derived_columns_frame dsKEx dsKEx3).2.2 rfl⟩⟩
